import Mathlib

/-!
Verification of the route-registration and reserved-prefix-guard core of
`src/web/routes.rs` (docs.rs web routing).

The Rust source is shallowly embedded:

* request paths and route patterns are Lean `String`s; the byte-level Rust
  string operations (`trim_matches`, `split`, slice `binary_search`) are
  re-implemented on `List Char` / `String` following the Rust semantics
  (UTF-8 byte order and Unicode code-point order coincide, so Lean's
  lexicographic `String` order models Rust's `str` order);
* the axum `MethodRouter` produced by the registration helpers is modelled by
  the record of facts the claims are about: the wrapped handler, the
  `request_recorder` classification label, and whether the
  `block_blacklisted_prefixes_middleware` layer was applied;
* iron handlers are a closed inductive mirroring the handler values the file
  constructs (`RequestRecorder::new`, `BlockBlacklistedPrefixes::new`,
  `PermanentRedirect`, plus opaque named leaf handlers);
* the two routers built at startup (`build_axum_routes`, `build_routes`)
  are translated registration-by-registration, in source order.
-/

/-- Source line 19: `const INTERNAL_PREFIXES: &[&str] = &["-", "about", "crate", "releases", "sitemap.xml"];` -/
def INTERNAL_PREFIXES : List String :=
  ["-", "about", "crate", "releases", "sitemap.xml"]

/-- Strict lexicographic order on char lists: Rust compares `str` values by
UTF-8 bytes, which orders strings exactly like their code-point sequences. -/
def strLtChars : List Char → List Char → Bool
  | _, [] => false
  | [], _ :: _ => true
  | a :: as, b :: bs => if a < b then true else if b < a then false else strLtChars as bs

/-- Rust `str` comparison `s < t` (`Ordering::Less` of `str::cmp`). -/
def rustStrLt (s t : String) : Bool :=
  strLtChars s.toList t.toList

/-- Loop body of Rust `slice::binary_search` (`binary_search_by` with
`f = |probe| probe.cmp(target)`), fuel-indexed.  The `size` argument is the
`size` variable of the Rust loop (equal to `right - left` on entry of every
iteration); `Ordering::Less`/`Greater` on `probe.cmp(target)` are the two
comparison branches.  Out-of-range indexing cannot happen on the call paths
used here; it is modelled by `List.getD` with a default. -/
def rustBinarySearchGo (l : List String) (target : String) :
    Nat → Nat → Nat → Nat → Option Nat
  | 0, _, _, _ => none
  | fuel+1, size, left, right =>
    if left < right then
      if rustStrLt (l.getD (left + size / 2) "") target then
        rustBinarySearchGo l target fuel (right - (left + size / 2 + 1))
          (left + size / 2 + 1) right
      else if rustStrLt target (l.getD (left + size / 2) "") then
        rustBinarySearchGo l target fuel ((left + size / 2) - left)
          left (left + size / 2)
      else
        some (left + size / 2)
    else
      none

/-- Rust `slice::binary_search`: `Ok idx` is modelled as `some idx`,
`Err insertion_point` as `none` (the claims only consult `.is_ok()`).
The loop halves the window each iteration, so `l.length + 1` fuel is enough
to reach the fixed point. -/
def rustBinarySearch (l : List String) (target : String) : Option Nat :=
  rustBinarySearchGo l target (l.length + 1) l.length 0 l.length

/-- Rust `str::trim_matches(c)`: strips every leading and trailing
occurrence of the character `c` (char-list level). -/
def rustTrimMatches (c : Char) (l : List Char) : List Char :=
  (l.dropWhile (· == c)).rdropWhile (· == c)

/-- Rust `str::split(c).next()`: the first piece of a `char`-split is the
maximal prefix free of the separator (Rust `split` always yields at least
one piece, so `.next()` is always `Some`). -/
def rustSplitNext (c : Char) (l : List Char) : List Char :=
  l.takeWhile (· != c)

/-- Source lines 67: `request.uri().path().trim_matches('/').split('/').next()` —
the first slash-separated component of the slash-trimmed request path. -/
def axumFirstComponent (path : List Char) : List Char :=
  rustSplitNext '/' (rustTrimMatches '/' path)

/-- Blocking condition of `block_blacklisted_prefixes_middleware`
(source lines 67-70): the first component is non-empty and
`INTERNAL_PREFIXES.binary_search(&first_component).is_ok()`. -/
def axumGuardBlocks (path : String) : Bool :=
  !(axumFirstComponent path.toList).isEmpty &&
    (rustBinarySearch INTERNAL_PREFIXES (String.mk (axumFirstComponent path.toList))).isSome

/-- Outcome of a guard middleware around an inner handler: either the
short-circuit `AxumNope::CrateNotFound` / `Nope::CrateNotFound` response, or
the request is forwarded to the inner handler. -/
inductive GuardOutcome (α : Type) where
  | crateNotFound : GuardOutcome α
  | forwarded : α → GuardOutcome α
  deriving DecidableEq

/-- Source lines 62-80: the axum guard middleware.  `next` is the inner
handler (`next.run(request)`), the request is modelled by its path. -/
def block_blacklisted_prefixes_middleware {α : Type}
    (next : String → α) (request : String) : GuardOutcome α :=
  if axumGuardBlocks request then
    GuardOutcome.crateNotFound
  else
    GuardOutcome.forwarded (next request)

/-- Splits a char list on a separator, keeping empty pieces, exactly like the
`url` crate's segment decomposition of the part of the path after the leading
slash (no normalization of duplicate slashes). -/
def splitOnChar (c : Char) : List Char → List (List Char)
  | [] => [[]]
  | x :: xs =>
    if x == c then
      [] :: splitOnChar c xs
    else
      match splitOnChar c xs with
      | s :: rest => (x :: s) :: rest
      | [] => [[x]]

/-- Iron's `req.url.path()`: the `url`-crate path segments, i.e. the pieces of
the path after the single leading `'/'`, split on `'/'` (empty segments kept,
`"/"` yielding `[""]`).  This is library behaviour of the `url` crate, not
code under `src/`; it is modelled here from that crate's documented
segmentation. -/
def ironPathSegments (path : String) : List String :=
  (splitOnChar '/' (path.toList.drop 1)).map String.mk

/-- Blocking condition of `BlockBlacklistedPrefixes::handle`
(source lines 383-388): the first parsed URL path segment exists and is
contained in the blacklist (the `HashSet<String>` is modelled as a list with
membership semantics). -/
def ironGuardBlocks (blacklist : List String) (path : String) : Bool :=
  match (ironPathSegments path).head? with
  | some pfx => decide (pfx ∈ blacklist)
  | none => false

/-- Source lines 382-391: `impl Handler for BlockBlacklistedPrefixes`.
If the first URL path segment is in the blacklist the request is answered
with `Nope::CrateNotFound`; otherwise the inner handler runs. -/
def BlockBlacklistedPrefixes.handle {α : Type} (blacklist : List String)
    (handler : String → α) (path : String) : GuardOutcome α :=
  match (ironPathSegments path).head? with
  | some pfx =>
    if pfx ∈ blacklist then GuardOutcome.crateNotFound
    else GuardOutcome.forwarded (handler path)
  | none => GuardOutcome.forwarded (handler path)

/-- Model of Rust `char::is_alphanumeric` used by `calculate_id`
(source line 397).  Rust's predicate is Unicode-aware; the ASCII predicate is
used here.  Every property proved about `calculate_id` below (length
preservation, determinism, output character classification) is insensitive to
which characters the predicate accepts. -/
def rust_is_alphanumeric (c : Char) : Bool :=
  c.isAlphanum

/-- Source lines 396-402: the per-character closure inside `calculate_id`:
keep the character when alphanumeric or `'-'`, otherwise emit `'_'`. -/
def calculate_char (c : Char) : Char :=
  if rust_is_alphanumeric c || c == '-' then c else '_'

/-- Source lines 395-405: `calculate_id` maps `calculate_char` over the
pattern's characters and collects the result. -/
def calculate_id (pattern : String) : String :=
  String.mk (pattern.toList.map calculate_char)

/-- Handlers appearing in the axum router model: opaque leaf handlers
(referred to by their source name), the `Redirect::permanent` closures, and
the trailing-slash-redirect handler that `route_with_tsr` registers at the
slash-twin of a pattern (it answers with a permanent redirect to the request
path with the trailing slash toggled to the canonical form). -/
inductive AxumHandlerModel where
  | named (name : String)
  | redirectPermanent (target : String)
  | tsrRedirect (canonicalPattern : String)
  deriving DecidableEq

/-- Facts recorded about an axum `MethodRouter` by the registration helpers:
the wrapped handler, the classification label passed to `request_recorder`,
and whether the `block_blacklisted_prefixes_middleware` layer was applied. -/
structure AxumMethodRouter where
  handler : AxumHandlerModel
  recorderLabel : Option String
  blacklistGuarded : Bool
  deriving DecidableEq

/-- Source lines 22-32: `get_static` wraps the handler with
`request_recorder(..., Some("static resource"))`. -/
def get_static (h : AxumHandlerModel) : AxumMethodRouter :=
  { handler := h, recorderLabel := some "static resource", blacklistGuarded := false }

/-- Source lines 34-45: `get_internal` wraps the handler with
`request_recorder(..., None)`. -/
def get_internal (h : AxumHandlerModel) : AxumMethodRouter :=
  { handler := h, recorderLabel := none, blacklistGuarded := false }

/-- Source lines 47-60: `get_rustdoc` wraps the handler with
`request_recorder(..., Some("rustdoc page"))` and additionally layers
`block_blacklisted_prefixes_middleware`. -/
def get_rustdoc (h : AxumHandlerModel) : AxumMethodRouter :=
  { handler := h, recorderLabel := some "rustdoc page", blacklistGuarded := true }

/-- `Router::route`: appends one registration. -/
def route (router : List (String × AxumMethodRouter)) (pattern : String)
    (mr : AxumMethodRouter) : List (String × AxumMethodRouter) :=
  router ++ [(pattern, mr)]

/-- `axum_extra`'s `RouterExt::route_with_tsr`: registers the route at
`pattern` and additionally registers, at the pattern differing only in the
trailing slash, a handler that permanently redirects to the canonical form
(`Redirect::permanent` onto the request path with the slash toggled). -/
def route_with_tsr (router : List (String × AxumMethodRouter)) (pattern : String)
    (mr : AxumMethodRouter) : List (String × AxumMethodRouter) :=
  let router' := route router pattern mr
  if pattern.toList.getLast? == some '/' then
    route router' (String.mk pattern.toList.dropLast)
      { handler := AxumHandlerModel.tsrRedirect pattern,
        recorderLabel := none, blacklistGuarded := false }
  else
    route router' (pattern ++ "/")
      { handler := AxumHandlerModel.tsrRedirect pattern,
        recorderLabel := none, blacklistGuarded := false }

/-- Source lines 82-242: `build_axum_routes`, translated registration by
registration in source order. -/
def build_axum_routes : List (String × AxumMethodRouter) :=
  let r : List (String × AxumMethodRouter) := []
  let r := route r "/robots.txt" (get_static (.redirectPermanent "/-/static/robots.txt"))
  let r := route r "/favicon.ico" (get_static (.redirectPermanent "/-/static/favicon.ico"))
  let r := route r "/-/static/*path" (get_static (.named "static_handler"))
  let r := route r "/opensearch.xml" (get_static (.redirectPermanent "/-/static/opensearch.xml"))
  let r := route_with_tsr r "/sitemap.xml" (get_internal (.named "sitemapindex_handler"))
  let r := route_with_tsr r "/-/sitemap/:letter/sitemap.xml" (get_internal (.named "sitemap_handler"))
  let r := route_with_tsr r "/about/builds" (get_internal (.named "about_builds_handler"))
  let r := route_with_tsr r "/about/metrics" (get_internal (.named "metrics_handler"))
  let r := route_with_tsr r "/about" (get_internal (.named "about_handler"))
  let r := route_with_tsr r "/about/:subpage" (get_internal (.named "about_handler"))
  let r := route r "/" (get_internal (.named "home_page"))
  let r := route_with_tsr r "/releases" (get_internal (.named "recent_releases_handler"))
  let r := route_with_tsr r "/releases/recent/:page" (get_internal (.named "recent_releases_handler"))
  let r := route_with_tsr r "/releases/stars" (get_internal (.named "releases_by_stars_handler"))
  let r := route_with_tsr r "/releases/stars/:page" (get_internal (.named "releases_by_stars_handler"))
  let r := route_with_tsr r "/releases/recent-failures" (get_internal (.named "releases_recent_failures_handler"))
  let r := route_with_tsr r "/releases/recent-failures/:page" (get_internal (.named "releases_recent_failures_handler"))
  let r := route_with_tsr r "/releases/failures" (get_internal (.named "releases_failures_by_stars_handler"))
  let r := route_with_tsr r "/releases/failures/:page" (get_internal (.named "releases_failures_by_stars_handler"))
  let r := route_with_tsr r "/crate/:name" (get_internal (.named "crate_details_handler"))
  let r := route_with_tsr r "/crate/:name/:version" (get_internal (.named "crate_details_handler"))
  let r := route_with_tsr r "/releases/feed" (get_static (.named "releases_feed_handler"))
  let r := route_with_tsr r "/releases/:owner" (get_internal (.named "owner_handler"))
  let r := route_with_tsr r "/releases/:owner/:page" (get_internal (.named "owner_handler"))
  let r := route_with_tsr r "/releases/activity" (get_internal (.named "activity_handler"))
  let r := route_with_tsr r "/releases/search" (get_internal (.named "search_handler"))
  let r := route_with_tsr r "/releases/queue" (get_internal (.named "build_queue_handler"))
  let r := route_with_tsr r "/crate/:name/:version/builds" (get_internal (.named "build_list_handler"))
  let r := route r "/crate/:name/:version/builds.json" (get_static (.named "build_list_json_handler"))
  let r := route_with_tsr r "/crate/:name/:version/builds/:id" (get_internal (.named "build_details_handler"))
  let r := route_with_tsr r "/crate/:name/:version/features" (get_internal (.named "build_features_handler"))
  let r := route_with_tsr r "/crate/:name/:version/source/" (get_internal (.named "source_browser_handler"))
  let r := route r "/crate/:name/:version/source/*path" (get_internal (.named "source_browser_handler"))
  let r := route r "/-/rustdoc.static/*path" (get_internal (.named "static_asset_handler"))
  let r := route r "/-/storage-change-detection.html" (get_internal (.named "storage_change_detection"))
  let r := route_with_tsr r "/crate/:name/:version/download" (get_internal (.named "download_handler"))
  let r := route r "/crate/:name/:version/target-redirect/*path" (get_internal (.named "target_redirect_handler"))
  let r := route r "/:crate/badge.svg" (get_rustdoc (.named "badge_handler"))
  r

/-- A registration created by `get_internal` (Internal-kind): no recorder
label, no blacklist layer, and not one of the twin redirect routes that
`route_with_tsr` adds alongside a registration. -/
def isInternalRoute (e : String × AxumMethodRouter) : Bool :=
  match e.2.handler with
  | AxumHandlerModel.tsrRedirect _ => false
  | _ => e.2.recorderLabel.isNone && !e.2.blacklistGuarded

/-- First segment of a route pattern when it is a literal: the leading
slash-free component, provided it is non-empty and is not a `:param` or
`*wildcard` specifier. -/
def firstLiteralSegment (pattern : String) : Option String :=
  match (pattern.toList.dropWhile (· == '/')).takeWhile (· != '/') with
  | [] => none
  | c :: cs => if c == ':' || c == '*' then none else some (String.mk (c :: cs))

/-- All first literal segments of Internal-kind registrations in the axum
router. -/
def internalFirstSegments : List String :=
  build_axum_routes.filterMap fun e =>
    if isInternalRoute e then firstLiteralSegment e.1 else none

/-- Path (or pattern) segments for axum route matching: pieces after the
leading `'/'`, split on `'/'`, empty pieces kept (so a trailing slash yields a
final empty segment, matching how `matchit` distinguishes `/p` from `/p/`). -/
def pathSegments (s : String) : List String :=
  (splitOnChar '/' (s.toList.drop 1)).map String.mk

/-- One pattern segment against one path segment: a `:param` specifier
matches any non-empty segment, anything else matches literally. -/
def segmentMatches (pat seg : String) : Bool :=
  match pat.toList with
  | ':' :: _ => !seg.toList.isEmpty
  | _ => pat == seg

/-- Pattern-segment list against path-segment list; a final `*wildcard`
specifier consumes the (non-empty) remainder. -/
def segsMatch : List String → List String → Bool
  | [], [] => true
  | [p], segs =>
    match p.toList with
    | '*' :: _ => !segs.isEmpty
    | _ =>
      match segs with
      | [seg] => segmentMatches p seg
      | _ => false
  | p :: ps, seg :: segs => segmentMatches p seg && segsMatch ps segs
  | _, _ => false

/-- Dispatch a request path in the axum router model: the matching
registration (unique on every path the claims exercise). -/
def dispatchAxum (path : String) : Option (String × AxumMethodRouter) :=
  build_axum_routes.find? fun e => segsMatch (pathSegments e.1) (pathSegments path)

/-- Iron handler values constructed in the source: opaque leaf handlers,
`RequestRecorder::new(handler, route_type)` (source line 347),
`BlockBlacklistedPrefixes::new(blacklist, handler)` (source line 333), and the
`PermanentRedirect` handler (source lines 352-362). -/
inductive IronHandler where
  | base (name : String)
  | requestRecorder (inner : IronHandler) (route_type : String)
  | blockBlacklistedPrefixes (blacklist : List String) (inner : IronHandler)
  | permanentRedirect (target : String)
  deriving DecidableEq

/-- True exactly when the dispatched handler is wrapped (outermost) by the
`BlockBlacklistedPrefixes` guard, i.e. the guard runs before anything else. -/
def IronHandler.isGuarded : IronHandler → Bool
  | IronHandler.blockBlacklistedPrefixes _ _ => true
  | _ => false

/-- True exactly when the handler is the `PermanentRedirect` handler. -/
def IronHandler.isPermanentRedirect : IronHandler → Bool
  | IronHandler.permanentRedirect _ => true
  | _ => false

/-- Source lines 293-302: the `Routes` registry.  The `HashSet<String>` of
page prefixes is modelled as a duplicate-free list with membership
semantics. -/
structure Routes where
  get : List (String × IronHandler)
  rustdoc_get : List (String × IronHandler)
  page_prefixes : List String
  deriving DecidableEq

/-- Source lines 305-311: `Routes::new`. -/
def Routes.new : Routes :=
  { get := [], rustdoc_get := [], page_prefixes := [] }

/-- Source lines 317-319: `Routes::add_internal_page_prefix` (HashSet
insertion). -/
def Routes.add_internal_page_prefix (self : Routes) (p : String) : Routes :=
  if p ∈ self.page_prefixes then self
  else { self with page_prefixes := self.page_prefixes ++ [p] }

/-- Source lines 344-349: `Routes::rustdoc_page` pushes
`(pattern, RequestRecorder::new(handler, "rustdoc page"))` onto the `get`
list (exactly as written in the source — note it does NOT push onto
`rustdoc_get`). -/
def Routes.rustdoc_page (self : Routes) (pattern : String) (handler : IronHandler) :
    Routes :=
  { self with
      get := self.get ++ [(pattern, IronHandler.requestRecorder handler "rustdoc page")] }

/-- Source lines 321-339: `Routes::iron_router`.  Every `get` registration is
installed as-is; every `rustdoc_get` registration is wrapped with
`BlockBlacklistedPrefixes::new(page_prefixes, handler)`.  Each installed route
is `(pattern, handler, calculate_id pattern)`. -/
def Routes.iron_router (self : Routes) : List (String × IronHandler × String) :=
  (self.get.map fun e => (e.1, e.2, calculate_id e.1)) ++
    (self.rustdoc_get.map fun e =>
      (e.1, IronHandler.blockBlacklistedPrefixes self.page_prefixes e.2, calculate_id e.1))

/-- Source lines 245-288: `build_routes`, translated call by call in source
order. -/
def build_routes : Routes :=
  let r := Routes.new
  let r := Routes.rustdoc_page r "/:crate" (.base "rustdoc_redirector_handler")
  let r := Routes.rustdoc_page r "/:crate/" (.base "rustdoc_redirector_handler")
  let r := Routes.rustdoc_page r "/:crate/:version" (.base "rustdoc_redirector_handler")
  let r := Routes.rustdoc_page r "/:crate/:version/" (.base "rustdoc_redirector_handler")
  let r := Routes.rustdoc_page r "/:crate/:version/settings.html" (.base "rustdoc_html_server_handler")
  let r := Routes.rustdoc_page r "/:crate/:version/scrape-examples-help.html" (.base "rustdoc_html_server_handler")
  let r := Routes.rustdoc_page r "/:crate/:version/all.html" (.base "rustdoc_html_server_handler")
  let r := Routes.rustdoc_page r "/:crate/:version/:target" (.base "rustdoc_redirector_handler")
  let r := Routes.rustdoc_page r "/:crate/:version/:target/" (.base "rustdoc_html_server_handler")
  let r := Routes.rustdoc_page r "/:crate/:version/:target/*.html" (.base "rustdoc_html_server_handler")
  INTERNAL_PREFIXES.foldl (fun acc p => Routes.add_internal_page_prefix acc p) r

/-! ## Order properties of the byte-order comparison -/

theorem strLtChars_irrefl : ∀ l : List Char, strLtChars l l = false
  | [] => rfl
  | a :: as => by
    simp [strLtChars, lt_irrefl, strLtChars_irrefl as]

theorem strLtChars_trans :
    ∀ a b c : List Char, strLtChars a b = true → strLtChars b c = true →
      strLtChars a c = true := by
  intro a
  induction a with
  | nil =>
    intro b c h1 h2
    cases c with
    | nil => cases b <;> simp [strLtChars] at h2
    | cons c cs => simp [strLtChars]
  | cons a as ih =>
    intro b c h1 h2
    cases b with
    | nil => simp [strLtChars] at h1
    | cons b bs =>
      cases c with
      | nil => simp [strLtChars] at h2
      | cons c cs =>
        simp only [strLtChars] at h1 h2 ⊢
        rcases lt_trichotomy a b with hab | hab | hab
        · rcases lt_trichotomy b c with hbc | hbc | hbc
          · simp [lt_trans hab hbc]
          · subst hbc; simp [hab]
          · rw [if_neg (lt_asymm hbc), if_pos hbc] at h2; exact absurd h2 (by simp)
        · subst hab
          rw [if_neg (lt_irrefl a), if_neg (lt_irrefl a)] at h1
          rcases lt_trichotomy a c with hac | hac | hac
          · simp [hac]
          · subst hac
            rw [if_neg (lt_irrefl a), if_neg (lt_irrefl a)] at h2
            simp [lt_irrefl, ih bs cs h1 h2]
          · rw [if_neg (lt_asymm hac), if_pos hac] at h2; exact absurd h2 (by simp)
        · rw [if_neg (lt_asymm hab), if_pos hab] at h1; exact absurd h1 (by simp)

theorem strLtChars_eq_of_not_lt :
    ∀ a b : List Char, strLtChars a b = false → strLtChars b a = false → a = b := by
  intro a
  induction a with
  | nil =>
    intro b h1 _
    cases b with
    | nil => rfl
    | cons b bs => simp [strLtChars] at h1
  | cons a as ih =>
    intro b h1 h2
    cases b with
    | nil => simp [strLtChars] at h2
    | cons b bs =>
      simp only [strLtChars] at h1 h2
      rcases lt_trichotomy a b with hab | hab | hab
      · rw [if_pos hab] at h1; exact absurd h1 (by simp)
      · subst hab
        rw [if_neg (lt_irrefl a), if_neg (lt_irrefl a)] at h1 h2
        rw [ih bs h1 h2]
      · rw [if_pos hab] at h2; exact absurd h2 (by simp)

theorem strLtChars_asymm {a b : List Char}
    (h : strLtChars a b = true) : strLtChars b a = false := by
  by_contra hc
  have hba : strLtChars b a = true := by
    cases hh : strLtChars b a with
    | true => rfl
    | false => exact absurd hh hc
  have := strLtChars_trans a b a h hba
  rw [strLtChars_irrefl] at this
  exact absurd this (by simp)

theorem rustStrLt_irrefl (s : String) : rustStrLt s s = false :=
  strLtChars_irrefl s.toList

theorem rustStrLt_trans {a b c : String} (h1 : rustStrLt a b = true)
    (h2 : rustStrLt b c = true) : rustStrLt a c = true :=
  strLtChars_trans a.toList b.toList c.toList h1 h2

theorem rustStrLt_eq_of_not_lt {a b : String} (h1 : rustStrLt a b = false)
    (h2 : rustStrLt b a = false) : a = b := by
  have := strLtChars_eq_of_not_lt a.toList b.toList h1 h2
  cases a; cases b; exact congrArg String.mk this

theorem rustStrLt_asymm {a b : String} (h : rustStrLt a b = true) :
    rustStrLt b a = false :=
  strLtChars_asymm h

/-! ## Correctness of the embedded `slice::binary_search` on sorted lists -/

theorem rustBinarySearchGo_isSome (l : List String) (s : String)
    (hsort : List.Pairwise (fun a b => rustStrLt a b = true) l) :
    ∀ (fuel left right : Nat), right ≤ l.length → right - left ≤ fuel →
      ((rustBinarySearchGo l s fuel (right - left) left right).isSome = true ↔
        ∃ i, ∃ h : i < l.length, left ≤ i ∧ i < right ∧ l[i] = s) := by
  have hpw := List.pairwise_iff_getElem.mp hsort
  intro fuel
  induction fuel with
  | zero =>
    intro left right hr hf
    simp only [rustBinarySearchGo, Option.isSome_none, Bool.false_eq_true, false_iff]
    rintro ⟨i, hi, hli, hir, -⟩
    omega
  | succ n ih =>
    intro left right hr hf
    by_cases hlr : left < right
    · have hmidlt : left + (right - left) / 2 < right := by omega
      have hmidlen : left + (right - left) / 2 < l.length := by omega
      have hgetD : l.getD (left + (right - left) / 2) "" = l[left + (right - left) / 2] :=
        List.getD_eq_getElem l "" hmidlen
      simp only [rustBinarySearchGo, if_pos hlr]
      cases hcmp1 : rustStrLt (l.getD (left + (right - left) / 2) "") s with
      | true =>
        rw [if_pos rfl]
        rw [ih (left + (right - left) / 2 + 1) right hr (by omega)]
        constructor
        · rintro ⟨i, hi, h1, h2, h3⟩
          exact ⟨i, hi, by omega, h2, h3⟩
        · rintro ⟨i, hi, h1, h2, h3⟩
          refine ⟨i, hi, ?_, h2, h3⟩
          by_contra hcon
          push_neg at hcon
          rw [hgetD] at hcmp1
          rcases Nat.lt_or_ge i (left + (right - left) / 2) with hlt2 | hge
          · have hl2 := hpw i (left + (right - left) / 2) hi hmidlen hlt2
            rw [h3] at hl2
            have := rustStrLt_trans hl2 hcmp1
            rw [rustStrLt_irrefl] at this
            exact absurd this (by simp)
          · have : i = left + (right - left) / 2 := by omega
            subst this
            rw [h3] at hcmp1
            rw [rustStrLt_irrefl] at hcmp1
            exact absurd hcmp1 (by simp)
      | false =>
        rw [if_neg (by simp)]
        cases hcmp2 : rustStrLt s (l.getD (left + (right - left) / 2) "") with
        | true =>
          rw [if_pos rfl]
          rw [ih left (left + (right - left) / 2) (by omega) (by omega)]
          constructor
          · rintro ⟨i, hi, h1, h2, h3⟩
            exact ⟨i, hi, h1, by omega, h3⟩
          · rintro ⟨i, hi, h1, h2, h3⟩
            refine ⟨i, hi, h1, ?_, h3⟩
            by_contra hcon
            push_neg at hcon
            rw [hgetD] at hcmp2
            rcases Nat.lt_or_ge (left + (right - left) / 2) i with hlt2 | hge
            · have hl2 := hpw (left + (right - left) / 2) i hmidlen hi hlt2
              rw [h3] at hl2
              have := rustStrLt_trans hcmp2 hl2
              rw [rustStrLt_irrefl] at this
              exact absurd this (by simp)
            · have : i = left + (right - left) / 2 := by omega
              subst this
              rw [h3] at hcmp2
              rw [rustStrLt_irrefl] at hcmp2
              exact absurd hcmp2 (by simp)
        | false =>
          rw [if_neg (by simp)]
          simp only [Option.isSome_some, true_iff]
          refine ⟨left + (right - left) / 2, hmidlen, by omega, hmidlt, ?_⟩
          rw [hgetD] at hcmp1 hcmp2
          exact (rustStrLt_eq_of_not_lt hcmp1 hcmp2).symm ▸ rfl
    · simp only [rustBinarySearchGo, if_neg hlr, Option.isSome_none,
        Bool.false_eq_true, false_iff]
      rintro ⟨i, hi, h1, h2, -⟩
      omega

theorem rustBinarySearch_isSome_iff (l : List String) (s : String)
    (hsort : List.Pairwise (fun a b => rustStrLt a b = true) l) :
    (rustBinarySearch l s).isSome = true ↔ s ∈ l := by
  have h := rustBinarySearchGo_isSome l s hsort (l.length + 1) 0 l.length
    (le_refl _) (by omega)
  rw [Nat.sub_zero] at h
  rw [rustBinarySearch, h]
  constructor
  · rintro ⟨i, hi, -, -, h3⟩
    exact h3 ▸ List.getElem_mem hi
  · intro hm
    obtain ⟨i, hi, h3⟩ := List.getElem_of_mem hm
    exact ⟨i, hi, Nat.zero_le _, hi, h3⟩

/-- `INTERNAL_PREFIXES` is strictly increasing in byte order. -/
theorem internal_prefixes_sorted :
    List.Pairwise (fun a b => rustStrLt a b = true) INTERNAL_PREFIXES := by
  decide

/-- On `INTERNAL_PREFIXES`, the `binary_search(..).is_ok()` test used by the
axum guard agrees with plain membership. -/
theorem rustBinarySearch_internal_prefixes (s : String) :
    (rustBinarySearch INTERNAL_PREFIXES s).isSome = true ↔ s ∈ INTERNAL_PREFIXES :=
  rustBinarySearch_isSome_iff _ _ internal_prefixes_sorted

/-! ## Lemmas about slash-trimming and splitting -/

theorem takeWhile_append_head {α : Type} (q : α → Bool) :
    ∀ (a t : List α), (∀ x, t.head? = some x → q x = false) →
      (a ++ t).takeWhile q = a.takeWhile q := by
  intro a
  induction a with
  | nil =>
    intro t ht
    cases t with
    | nil => rfl
    | cons x ts => simp [List.takeWhile_cons, ht x rfl]
  | cons b bs ih =>
    intro t ht
    simp only [List.cons_append, List.takeWhile_cons]
    by_cases hb : q b
    · rw [if_pos hb, if_pos hb, ih t ht]
    · rw [if_neg hb, if_neg hb]

theorem rdropWhile_append_rtakeWhile {α : Type} (p : α → Bool) (l : List α) :
    l.rdropWhile p ++ l.rtakeWhile p = l := by
  rw [List.rdropWhile, List.rtakeWhile, ← List.reverse_append,
    List.takeWhile_append_dropWhile, List.reverse_reverse]

/-- Dropping trailing separators does not change the first separator-free
component. -/
theorem takeWhile_ne_rdropWhile (c : Char) (l : List Char) :
    (l.rdropWhile (· == c)).takeWhile (· != c) = l.takeWhile (· != c) := by
  conv_rhs => rw [← rdropWhile_append_rtakeWhile (· == c) l]
  rw [takeWhile_append_head]
  intro x hx
  have hmem : x ∈ l.rtakeWhile (· == c) := by
    cases hh : l.rtakeWhile (· == c) with
    | nil => rw [hh] at hx; exact absurd hx (by simp)
    | cons y ys =>
      rw [hh] at hx
      simp only [List.head?_cons, Option.some_inj] at hx
      subst hx
      exact List.mem_cons_self y ys
  have := List.mem_rtakeWhile_imp hmem
  simp only [bne, this, Bool.not_true]

theorem head?_dropWhile {α : Type} (p : α → Bool) :
    ∀ (l : List α) (x : α), (l.dropWhile p).head? = some x → p x = false := by
  intro l
  induction l with
  | nil => intro x hx; exact absurd hx (by simp)
  | cons a as ih =>
    intro x hx
    rw [List.dropWhile_cons] at hx
    by_cases ha : p a
    · rw [if_pos ha] at hx; exact ih x hx
    · rw [if_neg ha] at hx
      simp only [List.head?_cons, Option.some_inj] at hx
      rw [← hx]
      exact Bool.eq_false_iff.mpr ha

theorem dropWhile_eq_self_of_head (c : Char) (l : List Char)
    (h : l.head? ≠ some c) : l.dropWhile (· == c) = l := by
  cases l with
  | nil => rfl
  | cons x xs =>
    rw [List.dropWhile_cons, if_neg]
    simp only [List.head?_cons, ne_eq, Option.some_inj] at h
    simp [h]

/-- Heads of the trimmed path are never the trimmed character. -/
theorem head?_rustTrimMatches (c : Char) (l : List Char) (x : Char)
    (hx : (rustTrimMatches c l).head? = some x) : (x == c) = false := by
  unfold rustTrimMatches at hx
  obtain ⟨s, hs⟩ := List.rdropWhile_prefix (· == c) (l.dropWhile (· == c))
  have h2 : (l.dropWhile (· == c)).head? = some x := by
    rw [← hs]
    cases hh : (l.dropWhile (· == c)).rdropWhile (· == c) with
    | nil => rw [hh] at hx; exact absurd hx (by simp)
    | cons y ys =>
      rw [hh] at hx
      simp only [List.head?_cons, Option.some_inj] at hx
      simp [hx]
  exact head?_dropWhile (· == c) l x h2

theorem axumFirstComponent_cons (rest : List Char) (h : rest.head? ≠ some '/') :
    axumFirstComponent ('/' :: rest) = rest.takeWhile (· != '/') := by
  unfold axumFirstComponent rustTrimMatches rustSplitNext
  rw [List.dropWhile_cons, if_pos (by simp), dropWhile_eq_self_of_head '/' rest h,
    takeWhile_ne_rdropWhile]

theorem axumFirstComponent_eq_dropWhile (l : List Char) :
    axumFirstComponent l = (l.dropWhile (· == '/')).takeWhile (· != '/') := by
  unfold axumFirstComponent rustTrimMatches rustSplitNext
  exact takeWhile_ne_rdropWhile '/' (l.dropWhile (· == '/'))

theorem splitOnChar_ne_nil (c : Char) : ∀ l : List Char, splitOnChar c l ≠ [] := by
  intro l
  cases l with
  | nil => simp [splitOnChar]
  | cons x xs =>
    by_cases hx : (x == c) = true
    · simp [splitOnChar, hx]
    · simp only [splitOnChar, if_neg hx]
      cases hsp : splitOnChar c xs <;> simp

theorem splitOnChar_head? (c : Char) :
    ∀ l : List Char, (splitOnChar c l).head? = some (l.takeWhile (· != c)) := by
  intro l
  induction l with
  | nil => rfl
  | cons x xs ih =>
    by_cases hx : (x == c) = true
    · have hx' : (x != c) = false := by simp [bne, hx]
      simp [splitOnChar, hx, List.takeWhile_cons, hx']
    · have hx' : (x != c) = true := by simp [bne]; simpa using hx
      simp only [splitOnChar, if_neg hx]
      cases hsp : splitOnChar c xs with
      | nil => exact absurd hsp (splitOnChar_ne_nil c xs)
      | cons s rest =>
        rw [hsp] at ih
        simp only [List.head?_cons, Option.some_inj] at ih
        simp [List.takeWhile_cons, hx', ih]

/-! ## Bridging lemmas between the two guard implementations -/

theorem rustBinarySearch_internal_decide (s : String) :
    (rustBinarySearch INTERNAL_PREFIXES s).isSome = decide (s ∈ INTERNAL_PREFIXES) := by
  cases hb : (rustBinarySearch INTERNAL_PREFIXES s).isSome with
  | true => simp [(rustBinarySearch_internal_prefixes s).mp hb]
  | false =>
    have hnm : s ∉ INTERNAL_PREFIXES := by
      intro hm
      rw [(rustBinarySearch_internal_prefixes s).mpr hm] at hb
      exact absurd hb (by simp)
    simp [hnm]

theorem axumGuardBlocks_iff (path : String) :
    axumGuardBlocks path = true ↔
      String.mk (axumFirstComponent path.toList) ≠ "" ∧
        String.mk (axumFirstComponent path.toList) ∈ INTERNAL_PREFIXES := by
  unfold axumGuardBlocks
  simp only [Bool.and_eq_true, Bool.not_eq_true', rustBinarySearch_internal_decide,
    decide_eq_true_eq]
  constructor
  · rintro ⟨h1, h2⟩
    refine ⟨?_, h2⟩
    intro hc
    have hfc : axumFirstComponent path.toList = [] := by
      have := congrArg String.toList hc
      simpa using this
    rw [hfc] at h1
    exact absurd h1 (by simp)
  · rintro ⟨h1, h2⟩
    refine ⟨?_, h2⟩
    cases hfc : axumFirstComponent path.toList with
    | nil =>
      rw [hfc] at h1
      exact absurd rfl h1
    | cons a as => simp

theorem handle_eq_ite {α : Type} (blacklist : List String) (handler : String → α)
    (path : String) :
    BlockBlacklistedPrefixes.handle blacklist handler path =
      if ironGuardBlocks blacklist path then GuardOutcome.crateNotFound
      else GuardOutcome.forwarded (handler path) := by
  unfold BlockBlacklistedPrefixes.handle ironGuardBlocks
  cases h : (ironPathSegments path).head? with
  | none => simp
  | some pfx => by_cases hm : pfx ∈ blacklist <;> simp [hm]

/-- On a path with a single leading slash, the axum blocking condition and
the iron blocking condition coincide. -/
theorem guards_agree (rest : List Char) (h : rest.head? ≠ some '/') :
    axumGuardBlocks (String.mk ('/' :: rest)) =
      ironGuardBlocks INTERNAL_PREFIXES (String.mk ('/' :: rest)) := by
  have htl : (String.mk ('/' :: rest)).toList = '/' :: rest := rfl
  unfold axumGuardBlocks ironGuardBlocks ironPathSegments
  rw [htl, axumFirstComponent_cons rest h]
  simp only [List.drop_succ_cons, List.drop_zero, List.head?_map, splitOnChar_head?,
    Option.map_some', rustBinarySearch_internal_decide]
  cases htw : rest.takeWhile (· != '/') with
  | nil => decide
  | cons x xs => simp

/-! ## Claim theorems -/

/-- Claim C1 (the code contradicts it): `Routes::rustdoc_page` pushes its
registrations into the plain `get` list, so `rustdoc_get` stays empty and
`iron_router` dispatches every content route directly, with no
`BlockBlacklistedPrefixes` wrapper anywhere — evaluated here at the failing
registration `rustdoc_page("/:crate", rustdoc_redirector_handler)`. -/
theorem C1_rustdoc_page_routes_not_guarded :
    build_routes.rustdoc_get = [] ∧
      (Routes.iron_router build_routes).all
        (fun e => ! IronHandler.isGuarded e.2.1) = true ∧
      (Routes.iron_router build_routes).filter (fun e => e.1 == "/:crate") =
        [("/:crate",
          IronHandler.requestRecorder (.base "rustdoc_redirector_handler") "rustdoc page",
          "__crate")] :=
  ⟨by decide, by decide, by decide⟩

/-- Claim C2: when the first slash-trimmed path component is non-empty and in
the reserved prefix set, the guard answers `CrateNotFound` without running the
inner handler ( `/releases/1.0.0` in particular); when the first component is
empty or not reserved, the request is forwarded to the inner handler
unchanged. -/
theorem C2_guard_blocks_reserved_first_segment :
    (∀ (α : Type) (next : String → α) (path : String),
        (String.mk (axumFirstComponent path.toList) ≠ "" ∧
            String.mk (axumFirstComponent path.toList) ∈ INTERNAL_PREFIXES →
          block_blacklisted_prefixes_middleware next path = GuardOutcome.crateNotFound) ∧
        (String.mk (axumFirstComponent path.toList) = "" ∨
            String.mk (axumFirstComponent path.toList) ∉ INTERNAL_PREFIXES →
          block_blacklisted_prefixes_middleware next path =
            GuardOutcome.forwarded (next path))) ∧
      (∀ (α : Type) (next : String → α),
        block_blacklisted_prefixes_middleware next "/releases/1.0.0" =
          GuardOutcome.crateNotFound) := by
  constructor
  · intro α next path
    constructor
    · intro h
      unfold block_blacklisted_prefixes_middleware
      rw [if_pos ((axumGuardBlocks_iff path).mpr h)]
    · intro h
      unfold block_blacklisted_prefixes_middleware
      rw [if_neg]
      intro hc
      rcases (axumGuardBlocks_iff path).mp hc with ⟨h1, h2⟩
      rcases h with h | h
      · exact h1 h
      · exact h h2
  · intro α next
    unfold block_blacklisted_prefixes_middleware
    rw [if_pos (by decide)]

/-- Witness for C2: the guard blocks `/about/1.0.0` (first segment "about" is
reserved) and forwards `/serde/1.0.0` (first segment "serde" is not). -/
theorem C2_witness :
    block_blacklisted_prefixes_middleware (fun _ => (0 : Nat)) "/about/1.0.0" =
        GuardOutcome.crateNotFound ∧
      block_blacklisted_prefixes_middleware (fun _ => (0 : Nat)) "/serde/1.0.0" =
        GuardOutcome.forwarded 0 :=
  ⟨(C2_guard_blocks_reserved_first_segment.1 Nat (fun _ => 0) "/about/1.0.0").1
      (by decide),
    (C2_guard_blocks_reserved_first_segment.1 Nat (fun _ => 0) "/serde/1.0.0").2
      (Or.inr (by decide))⟩

/-- Claim C3: a string is in `INTERNAL_PREFIXES` exactly when some
Internal-kind registration of the axum router has that string as its first
literal pattern segment. -/
theorem C3_reserved_set_iff_internal_first_segments :
    ∀ s : String, s ∈ INTERNAL_PREFIXES ↔
      ∃ e, e ∈ build_axum_routes ∧ isInternalRoute e = true ∧
        firstLiteralSegment e.1 = some s := by
  intro s
  have hmem : s ∈ internalFirstSegments ↔
      ∃ e, e ∈ build_axum_routes ∧ isInternalRoute e = true ∧
        firstLiteralSegment e.1 = some s := by
    unfold internalFirstSegments
    rw [List.mem_filterMap]
    constructor
    · rintro ⟨e, he, hf⟩
      rw [Option.ite_none_right_eq_some] at hf
      exact ⟨e, he, hf.1, hf.2⟩
    · rintro ⟨e, he, h1, h2⟩
      refine ⟨e, he, ?_⟩
      rw [Option.ite_none_right_eq_some]
      exact ⟨h1, h2⟩
  rw [← hmem]
  constructor
  · intro h
    have hall : INTERNAL_PREFIXES.all
        (fun x => decide (x ∈ internalFirstSegments)) = true := by decide
    exact of_decide_eq_true (List.all_eq_true.mp hall s h)
  · intro h
    have hall : internalFirstSegments.all
        (fun x => decide (x ∈ INTERNAL_PREFIXES)) = true := by decide
    exact of_decide_eq_true (List.all_eq_true.mp hall s h)

/-- Counterexample to claim C4 as stated: the trailing-slash variants of the
registered content patterns `/:crate` and `/:crate/:version` are NOT answered
with permanent redirects — `/:crate/` and `/:crate/:version/` are themselves
registered in the iron router as distinct routes dispatched directly to
`rustdoc_redirector_handler` (not a `PermanentRedirect` handler); and the
slash variant of the plain-registered axum pattern `/robots.txt` matches no
route at all. -/
theorem C4_counterexample :
    (Routes.iron_router build_routes).filter (fun e => e.1 == "/:crate/") =
        [("/:crate/",
          IronHandler.requestRecorder (.base "rustdoc_redirector_handler") "rustdoc page",
          "__crate_")] ∧
      (Routes.iron_router build_routes).filter (fun e => e.1 == "/:crate/:version/") =
        [("/:crate/:version/",
          IronHandler.requestRecorder (.base "rustdoc_redirector_handler") "rustdoc page",
          "__crate__version_")] ∧
      IronHandler.isPermanentRedirect
          (IronHandler.requestRecorder (.base "rustdoc_redirector_handler") "rustdoc page") =
        false ∧
      dispatchAxum "/robots.txt/" = none :=
  ⟨by decide, by decide, by decide, by decide⟩

/-- Claim C4 as amended: trailing-slash normalization holds exactly for the
patterns registered through `route_with_tsr` — every such registration,
whether or not the pattern itself ends in `'/'`, also installs the slash-twin
pattern answering with the permanent trailing-slash redirect (shown
generically for both shapes of pattern, and concretely for `/about/`,
`/releases/` and for `/crate/serde/1.0.0/source`, the slash-stripped twin of
the slash-terminated registration) — while plain `route` registrations and
the iron content patterns `/:crate/`, `/:crate/:version/` are separate,
directly dispatched routes. -/
theorem C4_amended_tsr_redirects :
    (∀ (r : List (String × AxumMethodRouter)) (p : String) (mr : AxumMethodRouter),
        (p.toList.getLast? == some '/') = false →
        route_with_tsr r p mr =
          r ++ [(p, mr),
            (p ++ "/",
              { handler := AxumHandlerModel.tsrRedirect p, recorderLabel := none,
                blacklistGuarded := false })]) ∧
      (∀ (r : List (String × AxumMethodRouter)) (p : String) (mr : AxumMethodRouter),
        (p.toList.getLast? == some '/') = true →
        route_with_tsr r p mr =
          r ++ [(p, mr),
            (String.mk p.toList.dropLast,
              { handler := AxumHandlerModel.tsrRedirect p, recorderLabel := none,
                blacklistGuarded := false })]) ∧
      dispatchAxum "/about/" = some ("/about/",
        { handler := AxumHandlerModel.tsrRedirect "/about", recorderLabel := none,
          blacklistGuarded := false }) ∧
      dispatchAxum "/releases/" = some ("/releases/",
        { handler := AxumHandlerModel.tsrRedirect "/releases", recorderLabel := none,
          blacklistGuarded := false }) ∧
      dispatchAxum "/crate/serde/1.0.0/source" =
        some ("/crate/:name/:version/source",
          { handler := AxumHandlerModel.tsrRedirect "/crate/:name/:version/source/",
            recorderLabel := none, blacklistGuarded := false }) := by
  refine ⟨?_, ?_, by decide, by decide, by decide⟩
  · intro r p mr h
    unfold route_with_tsr route
    rw [if_neg fun hc => by rw [hc] at h; exact absurd h (by decide)]
    simp [List.append_assoc]
  · intro r p mr h
    unfold route_with_tsr route
    rw [if_pos h]
    simp [List.append_assoc]

/-- Witness for C4 (amended): registering `/x` with `route_with_tsr` on the
empty router yields the route itself plus the `/x/` permanent-redirect twin,
and registering the slash-terminated `/y/` yields the route plus the `/y`
permanent-redirect twin. -/
theorem C4_amended_witness :
    route_with_tsr [] "/x" (get_internal (.named "h")) =
        [("/x", get_internal (.named "h")),
          ("/x" ++ "/",
            { handler := AxumHandlerModel.tsrRedirect "/x", recorderLabel := none,
              blacklistGuarded := false })] ∧
      route_with_tsr [] "/y/" (get_internal (.named "h")) =
        [("/y/", get_internal (.named "h")),
          ("/y",
            { handler := AxumHandlerModel.tsrRedirect "/y/", recorderLabel := none,
              blacklistGuarded := false })] :=
  ⟨C4_amended_tsr_redirects.1 [] "/x" (get_internal (.named "h")) (by decide),
    C4_amended_tsr_redirects.2.1 [] "/y/" (get_internal (.named "h")) (by decide)⟩

/-- Claim C5: `calculate_id` is pure and total, maps each character to itself
when alphanumeric-or-hyphen and to `'_'` otherwise, preserves length, is
deterministic, and every output character is alphanumeric, `'-'`, or `'_'`. -/
theorem C5_calculate_id_spec :
    ∀ pattern : String,
      calculate_id pattern = calculate_id pattern ∧
      (calculate_id pattern).toList = pattern.toList.map calculate_char ∧
      (calculate_id pattern).length = pattern.length ∧
      (∀ c, c ∈ pattern.toList → (rust_is_alphanumeric c || c == '-') = true →
        calculate_char c = c) ∧
      (∀ c, c ∈ pattern.toList → (rust_is_alphanumeric c || c == '-') = false →
        calculate_char c = '_') ∧
      (∀ c, c ∈ (calculate_id pattern).toList →
        rust_is_alphanumeric c = true ∨ c = '-' ∨ c = '_') := by
  intro p
  refine ⟨rfl, rfl, ?_, ?_, ?_, ?_⟩
  · show (p.toList.map calculate_char).length = p.toList.length
    simp
  · intro c _ h
    unfold calculate_char
    rw [if_pos h]
  · intro c _ h
    unfold calculate_char
    rw [if_neg (by simp [h])]
  · intro c hc
    replace hc : c ∈ p.toList.map calculate_char := hc
    obtain ⟨a, _, ha⟩ := List.mem_map.mp hc
    unfold calculate_char at ha
    by_cases h1 : (rust_is_alphanumeric a || a == '-') = true
    · rw [if_pos h1] at ha
      subst ha
      rcases Bool.or_eq_true_iff.mp h1 with h2 | h2
      · exact Or.inl h2
      · exact Or.inr (Or.inl (by simpa using h2))
    · rw [if_neg h1] at ha
      subst ha
      exact Or.inr (Or.inr rfl)

/-- Witness for C5: evaluated on the pattern `/:crate` — the alphanumeric
character `'c'` is kept, and the output character `'_'` (at the replaced
positions) is in the allowed output set. -/
theorem C5_witness :
    calculate_char 'c' = 'c' ∧
      (rust_is_alphanumeric '_' = true ∨ '_' = '-' ∨ '_' = '_') :=
  ⟨(C5_calculate_id_spec "/:crate").2.2.2.1 'c' (by decide) (by decide),
    (C5_calculate_id_spec "/:crate").2.2.2.2.2 '_' (by decide)⟩

/-- Claim C6: `get_static` records the label "static resource", `get_rustdoc`
and `Routes.rustdoc_page` record "rustdoc page", and `get_internal` records no
label at all (leaving the recorder's internal-page default). -/
theorem C6_registration_labels :
    ∀ (h : AxumHandlerModel) (r : Routes) (pat : String) (ih : IronHandler),
      (get_static h).recorderLabel = some "static resource" ∧
      (get_internal h).recorderLabel = none ∧
      (get_rustdoc h).recorderLabel = some "rustdoc page" ∧
      (Routes.rustdoc_page r pat ih).get =
        r.get ++ [(pat, IronHandler.requestRecorder ih "rustdoc page")] := by
  intro h r pat ih
  exact ⟨rfl, rfl, rfl, rfl⟩

/-- Claim C7: `GET /favicon.ico`, `/robots.txt` and `/opensearch.xml` each
dispatch to a `Redirect::permanent` onto the corresponding canonical
static-asset path (the dash-static tree). -/
theorem C7_wellknown_redirects :
    dispatchAxum "/favicon.ico" =
        some ("/favicon.ico", get_static (.redirectPermanent "/-/static/favicon.ico")) ∧
      dispatchAxum "/robots.txt" =
        some ("/robots.txt", get_static (.redirectPermanent "/-/static/robots.txt")) ∧
      dispatchAxum "/opensearch.xml" =
        some ("/opensearch.xml", get_static (.redirectPermanent "/-/static/opensearch.xml")) :=
  ⟨by decide, by decide, by decide⟩

/-- Claim C8: `INTERNAL_PREFIXES` is strictly sorted in byte order, and on it
the guard's `binary_search(..).is_ok()` test coincides with list
membership. -/
theorem C8_sorted_binary_search_is_membership :
    List.Pairwise (fun a b => rustStrLt a b = true) INTERNAL_PREFIXES ∧
      ∀ s : String,
        (rustBinarySearch INTERNAL_PREFIXES s).isSome = true ↔ s ∈ INTERNAL_PREFIXES :=
  ⟨internal_prefixes_sorted, rustBinarySearch_internal_prefixes⟩

/-- Counterexample to claim C9 as stated: on the request path `//about` the
two guards disagree even though the blacklist (`INTERNAL_PREFIXES`) does not
contain the empty string — the axum middleware blocks it (slash-trimming
makes the first component "about"), while the iron handler sees the empty
first URL segment and forwards to the inner handler. -/
theorem C9_counterexample :
    axumGuardBlocks "//about" = true ∧
      BlockBlacklistedPrefixes.handle INTERNAL_PREFIXES (fun _ => (0 : Nat)) "//about" =
        GuardOutcome.forwarded 0 ∧
      "" ∉ INTERNAL_PREFIXES :=
  ⟨by decide, by decide, by decide⟩

/-- Claim C9 as amended: the two guard implementations decide identically on
every request path that begins with a single `'/'` (not `"//"`): the blocking
conditions coincide and the full middleware outcomes coincide for every inner
handler. -/
theorem C9_amended_guards_agree :
    ∀ rest : List Char, rest.head? ≠ some '/' →
      axumGuardBlocks (String.mk ('/' :: rest)) =
          ironGuardBlocks INTERNAL_PREFIXES (String.mk ('/' :: rest)) ∧
        ∀ (α : Type) (next : String → α),
          block_blacklisted_prefixes_middleware next (String.mk ('/' :: rest)) =
            BlockBlacklistedPrefixes.handle INTERNAL_PREFIXES next
              (String.mk ('/' :: rest)) := by
  intro rest h
  refine ⟨guards_agree rest h, ?_⟩
  intro α next
  rw [handle_eq_ite, ← guards_agree rest h]
  rfl

/-- Witness for C9 (amended): both guards agree on the single-slash path
`/about`. -/
theorem C9_amended_witness :
    axumGuardBlocks (String.mk ('/' :: "about".toList)) =
      ironGuardBlocks INTERNAL_PREFIXES (String.mk ('/' :: "about".toList)) :=
  (C9_amended_guards_agree "about".toList (by decide)).1

/-- Claim C10: the axum guard strips all leading and trailing slashes — a
path made only of slashes (in particular the root `/`) is always forwarded,
and the blocking decision of any path equals that of the single-slash
canonical form built from its slash-trimmed core. -/
theorem C10_guard_slash_normalization :
    (∀ path : String, path.toList.all (· == '/') = true →
        ∀ (α : Type) (next : String → α),
          block_blacklisted_prefixes_middleware next path =
            GuardOutcome.forwarded (next path)) ∧
      (∀ path : String,
        axumGuardBlocks path =
          axumGuardBlocks ("/" ++ String.mk (rustTrimMatches '/' path.toList))) := by
  constructor
  · intro path hall α next
    unfold block_blacklisted_prefixes_middleware
    rw [if_neg]
    intro hc
    have hdrop : path.toList.dropWhile (· == '/') = [] := by
      rw [List.dropWhile_eq_nil_iff]
      exact List.all_eq_true.mp hall
    have hfc : axumFirstComponent path.toList = [] := by
      rw [axumFirstComponent_eq_dropWhile, hdrop]
      rfl
    unfold axumGuardBlocks at hc
    rw [hfc] at hc
    exact absurd hc (by decide)
  · intro path
    have htl : ("/" ++ String.mk (rustTrimMatches '/' path.toList)).toList =
        '/' :: rustTrimMatches '/' path.toList := rfl
    have hhead : (rustTrimMatches '/' path.toList).head? ≠ some '/' := by
      intro hc
      have := head?_rustTrimMatches '/' path.toList '/' hc
      exact absurd this (by decide)
    unfold axumGuardBlocks
    rw [htl, axumFirstComponent_cons _ hhead, axumFirstComponent_eq_dropWhile,
      show rustTrimMatches '/' path.toList =
        (path.toList.dropWhile (· == '/')).rdropWhile (· == '/') from rfl,
      takeWhile_ne_rdropWhile]

/-- Witness for C10: the all-slash path `///` is forwarded, and `//about`
decides like its canonical single-slash form. -/
theorem C10_witness :
    block_blacklisted_prefixes_middleware (fun _ => (0 : Nat)) "///" =
        GuardOutcome.forwarded 0 ∧
      axumGuardBlocks "//about" =
        axumGuardBlocks ("/" ++ String.mk (rustTrimMatches '/' "//about".toList)) :=
  ⟨C10_guard_slash_normalization.1 "///" (by decide) Nat (fun _ => 0),
    C10_guard_slash_normalization.2 "//about"⟩
